import Mathlib

/-
Verification development for the vhbarchsyn repository (src/src/syncer_util.rs,
src/src/archive.rs, src/src/util.rs, src/src/main.rs).

Modelling conventions:
- Rust PathBuf is modelled as String. The Rust code slices UTF-8 byte strings;
  all paths and markers relevant here are ASCII, where byte and character
  indexing coincide, so string operations are performed on the character list.
- Filesystem stat calls (fs::metadata(..).len()) are modelled as an oracle
  of type String -> Option Nat: some size when the stat succeeds, none when
  it fails.
- The rsync line iterator (str::lines) is modelled as an explicit list of
  line strings.
-/

namespace Vhb

/-- Character 0x27, the single-quote character that encloses the rsync
out-format string and therefore appears at both ends of every output line. -/
def quoteChar : Char := Char.ofNat 39

/-- Path separator character. -/
def slashChar : Char := Char.ofNat 47

/-- Splits a character list at every occurrence of the separator, keeping
empty segments (mirrors how path components are delimited). -/
def splitChars (sep : Char) : List Char → List (List Char)
  | [] => [[]]
  | c :: cs =>
    match splitChars sep cs with
    | [] => [[c]]
    | g :: gs => if c = sep then [] :: g :: gs else (c :: g) :: gs

/-- Model of Rust Path::file_name on a relative path: the last normal
component, where empty and current-dir components are skipped, and a path
whose last component is the parent-dir marker has no file name. -/
def fileName (p : String) : Option String :=
  let comps := (splitChars slashChar p.toList).filter
    (fun c => !(c.isEmpty) && !(c == [Char.ofNat 46]))
  match comps.getLast? with
  | some c => if c = [Char.ofNat 46, Char.ofNat 46] then none else some (String.mk c)
  | none => none

/-- Model of Path::join for a relative right-hand side (dir.join(p)). -/
def pathJoin (dir p : String) : String := dir ++ String.mk [slashChar] ++ p

/-- FsEntity from syncer_util.rs: a folder or a file, by relative path. -/
inductive FsEntity where
  | Folder : String → FsEntity
  | File : String → FsEntity
  deriving DecidableEq

/-- ChangeList from syncer_util.rs: deleted and changed entities plus the
recognized (deleted entity, destination path) move pairs. -/
structure ChangeList where
  deleted : List FsEntity
  changed : List FsEntity
  moved : List (FsEntity × String)
  deriving DecidableEq

/-- DEL_PREFIX from ChangeList::collect. -/
def delMarker : String := String.mk (quoteChar :: "changed-file:del.;".toList)

/-- SEND_PREFIX from ChangeList::collect. -/
def sendMarker : String := String.mk (quoteChar :: "changed-file:send;".toList)

/-- Length of the deletion marker; the source slices both recognized line
shapes with DEL_PREFIX.len(), and both markers have the same length. -/
def markerLen : Nat := delMarker.toList.length

/-- Recognizes one line of rsync output: some (token, isDeletion) when the
line carries one of the two markers, none otherwise. The token is the slice
between the marker and the final character of the line (the closing quote
that the out-format string places there). A line consisting of the bare
marker alone would panic in the Rust slice; it is mapped to the empty token
here and never arises in rsync output. -/
def lineToken (line : String) : Option (String × Bool) :=
  if delMarker.toList.isPrefixOf line.toList then
    some (String.mk ((line.toList.drop markerLen).dropLast), true)
  else if sendMarker.toList.isPrefixOf line.toList then
    some (String.mk ((line.toList.drop markerLen).dropLast), false)
  else none

/-- Turns a recognized token into an entity: a trailing separator denotes a
folder (with the separator stripped), otherwise a file. -/
def tokenEntity (path : String) : FsEntity :=
  if path.toList.getLast? = some slashChar then
    FsEntity.Folder (String.mk path.toList.dropLast)
  else
    FsEntity.File path

/-- One step of the line-scanning loop of ChangeList::collect, accumulating
the deleted and changed lists in order. -/
def collectStep (acc : List FsEntity × List FsEntity) (line : String) :
    List FsEntity × List FsEntity :=
  match lineToken line with
  | none => acc
  | some (path, isDeletion) =>
    if isDeletion then (acc.1 ++ [tokenEntity path], acc.2)
    else (acc.1, acc.2 ++ [tokenEntity path])

/-- ChangeList::collect from syncer_util.rs, on the list of output lines:
scans every line, collects deletion-marked and send-marked entities, and
returns none when both lists end up empty. -/
def collect (lines : List String) : Option ChangeList :=
  let res := lines.foldl collectStep ([], [])
  if res.1.isEmpty && res.2.isEmpty then none
  else some { deleted := res.1, changed := res.2, moved := [] }

/-- Stat oracle: maps an absolute path to the file size when fs::metadata
succeeds there, none when it errors. -/
def Fs : Type := String → Option Nat

/-- The fold inside ChangeList::extract_moves that gathers, in changed-list
order, the paths of changed file entities sharing the deleted file's final
path component. -/
def candidatePaths (changed : List FsEntity) (deletedFilename : String) : List String :=
  changed.foldl
    (fun paths entity =>
      match entity with
      | FsEntity.Folder _ => paths
      | FsEntity.File changedPath =>
        match fileName changedPath with
        | some changedFilename =>
          if changedFilename = deletedFilename then paths ++ [changedPath] else paths
        | none => paths)
    []

/-- Candidate acceptance test of the inner loop of extract_moves: the
candidate stats successfully inside the working directory and its size
equals the deleted file's size. -/
def sizeMatches (fs : Fs) (workingDir : String) (deletedFileSize : Nat)
    (candidate : String) : Bool :=
  match fs (pathJoin workingDir candidate) with
  | some sz => sz == deletedFileSize
  | none => false

/-- Processing of one deleted entity by extract_moves. Returns the keep-flags
pushed to deletions_to_keep for this entity and the pairs pushed to moved.
Folders, files without a final component, and files that cannot be stat'd in
the archived directory push a single true flag. A deleted file that stats
pushes one false flag per accepted candidate (the inner continue statement
only continues the candidate loop) and then unconditionally one true flag. -/
def processDeleted (fs : Fs) (archivedDir workingDir : String)
    (changed : List FsEntity) (deleted : FsEntity) :
    List Bool × List (FsEntity × String) :=
  match deleted with
  | FsEntity.Folder _ => ([true], [])
  | FsEntity.File deletedPath =>
    match fileName deletedPath with
    | none => ([true], [])
    | some deletedFilename =>
      match fs (pathJoin archivedDir deletedPath) with
      | none => ([true], [])
      | some deletedFileSize =>
        let hits := (candidatePaths changed deletedFilename).filter
          (sizeMatches fs workingDir deletedFileSize)
        (hits.map (fun _ => false) ++ [true], hits.map (fun c => (deleted, c)))

/-- ChangeList::extract_moves from syncer_util.rs. Produces the refined
record and the function's return value. The deleted list is filtered by
Vec::retain, which consumes the accumulated keep-flags positionally, one per
deleted element in order (modelled by zipping); the local vector returned by
the function is never pushed to in the source and stays empty. -/
def extract_moves (fs : Fs) (archivedDir workingDir : String) (cl : ChangeList) :
    ChangeList × List FsEntity :=
  let results := cl.deleted.map (processDeleted fs archivedDir workingDir cl.changed)
  let keepFlags := (results.map Prod.fst).flatten
  let movedAdditions := (results.map Prod.snd).flatten
  let newDeleted := (cl.deleted.zip keepFlags).filterMap
    (fun ek => if ek.2 = true then some ek.1 else none)
  ({ deleted := newDeleted, changed := cl.changed, moved := cl.moved ++ movedAdditions }, [])

/-- Parse outcome of one directory-entry name under the configured date
format: a successfully parsed timestamp, a Unicode name that fails to parse,
or a name that is not valid Unicode (OsStr::to_str fails). Timestamps are
modelled as seconds; the default pattern has one-second resolution, so the
name determines the timestamp and vice versa. -/
inductive EntryName where
  | valid : Nat → EntryName
  | invalid
  | nonUnicode
  deriving DecidableEq

/-- One entry of the archive directory listing: whether it is a directory,
its name classification, and whether the per-entry access (the read_dir item
and its metadata call) succeeds. -/
structure DirEntry where
  isDir : Bool
  name : EntryName
  metaOk : Bool
  deriving DecidableEq

/-- The archive directory: whether read_dir succeeds on it, and its entries
in listing order. -/
structure ArchiveDir where
  readable : Bool
  entries : List DirEntry
  deriving DecidableEq

/-- Error cases of the scanner functions. -/
inductive ScanError where
  | unreadableDir
  | entryAccess
  | nameNotUnicode
  deriving DecidableEq

/-- The latest-accumulator update of latest_timestamp_named_dir: first
timestamp is taken, later ones replace the accumulator only when strictly
greater. -/
def latestUpdate (latest : Option Nat) (t : Nat) : Option Nat :=
  match latest with
  | none => some t
  | some old => if t > old then some t else some old

/-- Scanning loop of latest_timestamp_named_dir: per-entry access failure is
an error, a non-directory is skipped, a non-Unicode directory name is an
error, a non-parsing name is skipped with a warning, a parsing name updates
the accumulator. -/
def latestTs : List DirEntry → Option Nat → Except ScanError (Option Nat)
  | [], acc => Except.ok acc
  | e :: es, acc =>
    if e.metaOk = true then
      if e.isDir = true then
        match e.name with
        | EntryName.nonUnicode => Except.error ScanError.nameNotUnicode
        | EntryName.invalid => latestTs es acc
        | EntryName.valid t => latestTs es (latestUpdate acc t)
      else latestTs es acc
    else Except.error ScanError.entryAccess

/-- latest_timestamp_named_dir from syncer_util.rs. -/
def latest_timestamp_named_dir (d : ArchiveDir) : Except ScanError (Option Nat) :=
  if d.readable = true then latestTs d.entries none
  else Except.error ScanError.unreadableDir

/-- Scanning loop of count_timestamp_named_folders: same traversal, counting
the successfully parsed directory names. -/
def countTs : List DirEntry → Nat → Except ScanError Nat
  | [], acc => Except.ok acc
  | e :: es, acc =>
    if e.metaOk = true then
      if e.isDir = true then
        match e.name with
        | EntryName.nonUnicode => Except.error ScanError.nameNotUnicode
        | EntryName.invalid => countTs es acc
        | EntryName.valid _ => countTs es (acc + 1)
      else countTs es acc
    else Except.error ScanError.entryAccess

/-- count_timestamp_named_folders from syncer_util.rs. -/
def count_timestamp_named_folders (d : ArchiveDir) : Except ScanError Nat :=
  if d.readable = true then countTs d.entries 0
  else Except.error ScanError.unreadableDir

/-- The timestamps of the validly named subdirectories, in listing order
(specification-side notion used to state the scanner contracts). -/
def validTimestamps (es : List DirEntry) : List Nat :=
  es.filterMap
    (fun e =>
      if e.isDir = true then
        match e.name with
        | EntryName.valid t => some t
        | _ => none
      else none)

/-- Maximum accumulator step, specification-side. -/
def maxStep (acc : Option Nat) (t : Nat) : Option Nat :=
  match acc with
  | none => some t
  | some m => some (Nat.max m t)

/-- Modelled from the spec wording: the maximum successfully parsed
timestamp among the subdirectory names, or none when there is none. -/
def specMaxParsed (es : List DirEntry) : Option Nat :=
  (validTimestamps es).foldl maxStep none

/-- Environment of one rsync invocation: whether the binary is found in the
search path, and the run outcome: none when the process cannot be run or
captured, otherwise the exit-status success flag and the captured output
lines. -/
structure RsyncEnv where
  binaryFound : Bool
  runResult : Option (Bool × List String)
  deriving DecidableEq

/-- Error cases of rsync_extract_diff. -/
inductive RsyncError where
  | toolMissing
  | runFailed
  | exitNonZero
  | sentinelFound
  deriving DecidableEq

/-- The failure sentinel rsync prints when a batched update cannot be made. -/
def sentinelText : String := "No batched update for"

/-- Contiguous-subsequence test on character lists, modelling
str::contains. -/
def charsContain (needle : List Char) : List Char → Bool
  | [] => needle.isEmpty
  | c :: cs => needle.isPrefixOf (c :: cs) || charsContain needle cs

/-- Whether the captured output contains the failure sentinel (the source
checks the whole captured stdout; the sentinel holds no newline, so it is
contained in the output exactly when some line contains it). -/
def hasSentinel (out : List String) : Bool :=
  out.any (fun l => charsContain sentinelText.toList l.toList)

/-- rsync_extract_diff from syncer_util.rs: missing binary, failed run,
non-zero exit and sentinel output are errors, in that order of checking;
otherwise the captured output is parsed by ChangeList::collect. -/
def rsync_extract_diff (env : RsyncEnv) : Except RsyncError (Option ChangeList) :=
  if env.binaryFound = true then
    match env.runResult with
    | none => Except.error RsyncError.runFailed
    | some (exitSuccess, out) =>
      if exitSuccess = true then
        if hasSentinel out = true then Except.error RsyncError.sentinelFound
        else Except.ok (collect out)
      else Except.error RsyncError.exitNonZero
  else Except.error RsyncError.toolMissing

/-- Calendar date of a timestamp, at day granularity (date_naive). -/
def dateOf (t : Nat) : Nat := t / 86400

/-- Error cases of an archive run. -/
inductive ArchiveError where
  | scan : ScanError → ArchiveError
  | createDirFailed
  | extract : RsyncError → ArchiveError
  | forkMove
  | forkCopy
  | applyDiff
  | serialize
  | auditWrite
  deriving DecidableEq

/-- Outcome of resolving the archive state at the start of a run: the name
(as parsed timestamp) of the baseline directory created when the archive was
empty, the timestamp naming the latest archived directory, and the
fast-forward flag. -/
structure FfDecision where
  createdBaseline : Option Nat
  latestTsVal : Nat
  fastForward : Bool
  deriving DecidableEq

/-- The archive directory after creating the empty baseline directory, which
archive_local names with the clock value minus one second. -/
def archiveWithBaseline (d : ArchiveDir) (now : Nat) : ArchiveDir :=
  { readable := d.readable,
    entries := d.entries ++ [{ isDir := true, name := EntryName.valid (now - 1), metaOk := true }] }

/-- Lines 10-32 of archive.rs: resolve the latest snapshot, creating an
empty baseline directory named now minus one second when none exists (with
fast-forward off), take fast-forward from the is-today comparison otherwise,
then force fast-forward off when exactly one timestamp-named folder exists. -/
def resolveArchiveState (d : ArchiveDir) (now : Nat) (createDirOk : Bool) :
    Except ArchiveError FfDecision :=
  match latest_timestamp_named_dir d with
  | Except.error e => Except.error (ArchiveError.scan e)
  | Except.ok (some t) =>
    match count_timestamp_named_folders d with
    | Except.error e => Except.error (ArchiveError.scan e)
    | Except.ok c =>
      Except.ok { createdBaseline := none, latestTsVal := t,
                  fastForward := if c = 1 then false else (dateOf t == dateOf now) }
  | Except.ok none =>
    if createDirOk = true then
      match count_timestamp_named_folders (archiveWithBaseline d now) with
      | Except.error e => Except.error (ArchiveError.scan e)
      | Except.ok c =>
        Except.ok { createdBaseline := some (now - 1), latestTsVal := now - 1,
                    fastForward := if c = 1 then false else false }
    else Except.error ArchiveError.createDirFailed

/-- Effects of one archive run, accumulated as the run proceeds: the created
baseline directory name, whether the fork/rename of the latest snapshot
completed, whether the diff was applied to it, and the audit record content
when it was serialized and written. -/
structure RunEffects where
  createdBaseline : Option Nat
  snapshotMutated : Bool
  diffApplied : Bool
  auditRecord : Option ChangeList
  deriving DecidableEq

/-- Environment of one archive_local run: the archive listing, the clock,
the outcome flags of every external operation, and the stat oracle used by
move extraction. -/
structure RunEnv where
  archive : ArchiveDir
  now : Nat
  createDirOk : Bool
  rsync : RsyncEnv
  fsStat : Fs
  workingDir : String
  archiveRoot : String
  moveOk : Bool
  copyOk : Bool
  applyOk : Bool
  serializeOk : Bool
  writeOk : Bool

/-- Effects before any mutation happened. -/
def noEffects : RunEffects :=
  { createdBaseline := none, snapshotMutated := false, diffApplied := false,
    auditRecord := none }

/-- Tail of archive_local after the fork/rename primitive succeeded: apply
the diff, serialize the refined change record, write the audit file. Each
step only runs when every earlier step succeeded. -/
def archiveFinish (env : RunEnv) (refined : ChangeList) (eff0 : RunEffects) :
    Except ArchiveError Unit × RunEffects :=
  let eff1 := { eff0 with snapshotMutated := true }
  if env.applyOk = true then
    let eff2 := { eff1 with diffApplied := true }
    if env.serializeOk = true then
      if env.writeOk = true then (Except.ok (), { eff2 with auditRecord := some refined })
      else (Except.error ArchiveError.auditWrite, eff2)
    else (Except.error ArchiveError.serialize, eff2)
  else (Except.error ArchiveError.applyDiff, eff1)

/-- Middle of archive_local once a change record was produced: run move
extraction on it, then rename (fast-forward) or recursively copy (fork) the
latest snapshot, then finish with apply/serialize/write. -/
def forkApply (env : RunEnv) (dec : FfDecision) (cl : ChangeList) (eff0 : RunEffects) :
    Except ArchiveError Unit × RunEffects :=
  let latestArchivedPath := pathJoin env.archiveRoot (Nat.repr dec.latestTsVal)
  let refined := (extract_moves env.fsStat latestArchivedPath env.workingDir cl).1
  if dec.fastForward = true then
    if env.moveOk = true then archiveFinish env refined eff0
    else (Except.error ArchiveError.forkMove, eff0)
  else
    if env.copyOk = true then archiveFinish env refined eff0
    else (Except.error ArchiveError.forkCopy, eff0)

/-- archive_local after the archive state was resolved: extract the diff,
stop successfully when the tool reports no changes, continue otherwise. -/
def afterResolve (env : RunEnv) (dec : FfDecision) : Except ArchiveError Unit × RunEffects :=
  let eff0 : RunEffects := { noEffects with createdBaseline := dec.createdBaseline }
  match rsync_extract_diff env.rsync with
  | Except.error e => (Except.error (ArchiveError.extract e), eff0)
  | Except.ok none => (Except.ok (), eff0)
  | Except.ok (some cl) => forkApply env dec cl eff0

/-- archive_local from archive.rs: resolve the archive state, extract the
diff, stop successfully when there are no changes, otherwise run move
extraction, fork or rename the latest snapshot, apply the diff to it, and
persist the audit record; every failure aborts immediately, and the effects
component records which mutations had completed by then. -/
def archive_local (env : RunEnv) : Except ArchiveError Unit × RunEffects :=
  match resolveArchiveState env.archive env.now env.createDirOk with
  | Except.error e => (Except.error e, noEffects)
  | Except.ok dec => afterResolve env dec


theorem latestUpdate_eq_maxStep (acc : Option Nat) (t : Nat) :
    latestUpdate acc t = maxStep acc t := by
  cases acc with
  | none => rfl
  | some old =>
    show (if t > old then some t else some old) = some (Nat.max old t)
    rcases Nat.lt_or_ge old t with h | h
    · rw [if_pos h]
      exact congrArg some (Nat.max_eq_right h.le).symm
    · rw [if_neg (Nat.not_lt.mpr h)]
      exact congrArg some (Nat.max_eq_left h).symm

theorem latestTs_eq_fold (es : List DirEntry) (acc : Option Nat)
    (hacc : ∀ e ∈ es, e.metaOk = true)
    (huni : ∀ e ∈ es, e.isDir = true → e.name ≠ EntryName.nonUnicode) :
    latestTs es acc = Except.ok ((validTimestamps es).foldl maxStep acc) := by
  induction es generalizing acc with
  | nil => rfl
  | cons e es ih =>
    have hm := hacc e (List.mem_cons_self e es)
    have hacc2 : ∀ x ∈ es, x.metaOk = true := fun x hx => hacc x (List.mem_cons_of_mem _ hx)
    have huni2 : ∀ x ∈ es, x.isDir = true → x.name ≠ EntryName.nonUnicode :=
      fun x hx => huni x (List.mem_cons_of_mem _ hx)
    unfold latestTs
    rw [if_pos hm]
    cases hd : e.isDir with
    | false =>
      show latestTs es acc = _
      rw [ih acc hacc2 huni2]
      simp [validTimestamps, List.filterMap_cons, hd]
    | true =>
      cases hn : e.name with
      | nonUnicode => exact absurd hn (huni e (List.mem_cons_self e es) hd)
      | invalid =>
        show latestTs es acc = _
        rw [ih acc hacc2 huni2]
        simp [validTimestamps, List.filterMap_cons, hd, hn]
      | valid t =>
        show latestTs es (latestUpdate acc t) = _
        rw [ih (latestUpdate acc t) hacc2 huni2, latestUpdate_eq_maxStep]
        simp [validTimestamps, List.filterMap_cons, hd, hn, maxStep]

theorem countTs_eq_fold (es : List DirEntry) (acc : Nat)
    (hacc : ∀ e ∈ es, e.metaOk = true)
    (huni : ∀ e ∈ es, e.isDir = true → e.name ≠ EntryName.nonUnicode) :
    countTs es acc = Except.ok (acc + (validTimestamps es).length) := by
  induction es generalizing acc with
  | nil => rfl
  | cons e es ih =>
    have hm := hacc e (List.mem_cons_self e es)
    have hacc2 : ∀ x ∈ es, x.metaOk = true := fun x hx => hacc x (List.mem_cons_of_mem _ hx)
    have huni2 : ∀ x ∈ es, x.isDir = true → x.name ≠ EntryName.nonUnicode :=
      fun x hx => huni x (List.mem_cons_of_mem _ hx)
    unfold countTs
    rw [if_pos hm]
    cases hd : e.isDir with
    | false =>
      show countTs es acc = _
      rw [ih acc hacc2 huni2]
      simp [validTimestamps, List.filterMap_cons, hd]
    | true =>
      cases hn : e.name with
      | nonUnicode => exact absurd hn (huni e (List.mem_cons_self e es) hd)
      | invalid =>
        show countTs es acc = _
        rw [ih acc hacc2 huni2]
        simp [validTimestamps, List.filterMap_cons, hd, hn]
      | valid t =>
        show countTs es (acc + 1) = _
        rw [ih (acc + 1) hacc2 huni2]
        simp [validTimestamps, List.filterMap_cons, hd, hn]
        omega

theorem latest_eq_specMax (d : ArchiveDir)
    (hr : d.readable = true)
    (hacc : ∀ e ∈ d.entries, e.metaOk = true)
    (huni : ∀ e ∈ d.entries, e.isDir = true → e.name ≠ EntryName.nonUnicode) :
    latest_timestamp_named_dir d = Except.ok (specMaxParsed d.entries) := by
  unfold latest_timestamp_named_dir
  rw [if_pos hr]
  exact latestTs_eq_fold d.entries none hacc huni

theorem count_eq_length (d : ArchiveDir)
    (hr : d.readable = true)
    (hacc : ∀ e ∈ d.entries, e.metaOk = true)
    (huni : ∀ e ∈ d.entries, e.isDir = true → e.name ≠ EntryName.nonUnicode) :
    count_timestamp_named_folders d = Except.ok (validTimestamps d.entries).length := by
  unfold count_timestamp_named_folders
  rw [if_pos hr]
  rw [countTs_eq_fold d.entries 0 hacc huni]
  simp



theorem validTimestamps_append (xs ys : List DirEntry) :
    validTimestamps (xs ++ ys) = validTimestamps xs ++ validTimestamps ys := by
  unfold validTimestamps
  exact List.filterMap_append xs ys _

def dC6bad : ArchiveDir :=
  { readable := true,
    entries := [{ isDir := true, name := EntryName.valid 5, metaOk := true },
                { isDir := true, name := EntryName.nonUnicode, metaOk := true }] }

/-- C6 counterexample: a readable archive directory mixing a validly
timestamp-named subdirectory with a subdirectory whose name is not valid
Unicode makes both scanner functions fail, although the directory itself
can be read; the claim says they fail only when the directory cannot be
read. -/
theorem C6_scanner_failure_cex :
    dC6bad.readable = true ∧
    latest_timestamp_named_dir dC6bad = Except.error ScanError.nameNotUnicode ∧
    count_timestamp_named_folders dC6bad = Except.error ScanError.nameNotUnicode :=
  ⟨rfl, rfl, rfl⟩

/-- C6 as amended: when the archive directory is readable, every entry is
accessible and every subdirectory name is valid Unicode, both scanner
functions succeed, skipping the names that fail to parse: they return the
maximum parsed timestamp and the count of parsing directory names. -/
theorem C6_scanner_skips_invalid (d : ArchiveDir)
    (hr : d.readable = true)
    (hacc : ∀ e ∈ d.entries, e.metaOk = true)
    (huni : ∀ e ∈ d.entries, e.isDir = true → e.name ≠ EntryName.nonUnicode) :
    latest_timestamp_named_dir d = Except.ok (specMaxParsed d.entries) ∧
    count_timestamp_named_folders d = Except.ok (validTimestamps d.entries).length :=
  ⟨latest_eq_specMax d hr hacc huni, count_eq_length d hr hacc huni⟩

def dC6w : ArchiveDir :=
  { readable := true,
    entries := [{ isDir := true, name := EntryName.valid 3, metaOk := true },
                { isDir := true, name := EntryName.invalid, metaOk := true },
                { isDir := false, name := EntryName.invalid, metaOk := true },
                { isDir := true, name := EntryName.valid 7, metaOk := true }] }

/-- C6 witness: the amended theorem instantiated at a directory mixing two
valid names, an invalid directory name and a non-directory entry. -/
theorem C6_scanner_skips_invalid_witness :
    latest_timestamp_named_dir dC6w = Except.ok (some 7) ∧
    count_timestamp_named_folders dC6w = Except.ok 2 :=
  C6_scanner_skips_invalid dC6w (by decide) (by decide) (by decide)

/-- C5: fast-forward eligibility is false whenever exactly one
timestamp-named snapshot directory exists, regardless of its date, and true
whenever more than one exists and the date of the latest one equals the
current calendar date. -/
theorem C5_fast_forward_eligibility (d : ArchiveDir) (now : Nat) (cok : Bool)
    (hr : d.readable = true)
    (hacc : ∀ e ∈ d.entries, e.metaOk = true)
    (huni : ∀ e ∈ d.entries, e.isDir = true → e.name ≠ EntryName.nonUnicode) :
    ((validTimestamps d.entries).length = 1 →
      ∃ dec, resolveArchiveState d now cok = Except.ok dec ∧ dec.fastForward = false) ∧
    (∀ t, 2 ≤ (validTimestamps d.entries).length →
      specMaxParsed d.entries = some t → dateOf t = dateOf now →
      ∃ dec, resolveArchiveState d now cok = Except.ok dec ∧ dec.fastForward = true) := by
  have hL := latest_eq_specMax d hr hacc huni
  have hC := count_eq_length d hr hacc huni
  constructor
  · intro h1
    obtain ⟨a, ha⟩ := List.length_eq_one.mp h1
    have hmax : specMaxParsed d.entries = some a := by
      unfold specMaxParsed
      rw [ha]
      rfl
    refine ⟨{ createdBaseline := none, latestTsVal := a, fastForward := false }, ?_, rfl⟩
    simp [resolveArchiveState, hL, hmax, hC, h1]
  · intro t h2 hmax hdate
    have hne : (validTimestamps d.entries).length ≠ 1 := by omega
    refine ⟨{ createdBaseline := none, latestTsVal := t, fastForward := true }, ?_, rfl⟩
    simp only [resolveArchiveState, hL, hmax, hC]
    rw [if_neg hne]
    simp [hdate]

def dC5w : ArchiveDir :=
  { readable := true, entries := [{ isDir := true, name := EntryName.valid 5, metaOk := true }] }

/-- C5 witness: the theorem instantiated at an archive holding exactly one
snapshot, giving fast-forward off. -/
theorem C5_fast_forward_eligibility_witness :
    ∃ dec, resolveArchiveState dC5w 999 true = Except.ok dec ∧ dec.fastForward = false :=
  (C5_fast_forward_eligibility dC5w 999 true (by decide) (by decide) (by decide)).1 (by decide)

def dC4empty : ArchiveDir := { readable := true, entries := [] }

/-- C4 counterexample: on an empty archive at clock value 100, the run
creates the baseline directory named 99 (the clock value minus one second),
not 100, so the directory is not named with the current timestamp as the
claim states. -/
theorem C4_baseline_name_cex :
    resolveArchiveState dC4empty 100 true =
      Except.ok { createdBaseline := some 99, latestTsVal := 99, fastForward := false } ∧
    (99 : Nat) ≠ 100 :=
  ⟨rfl, by decide⟩

/-- C4 as amended: when no snapshot exists, the run creates an empty
snapshot directory named with the current clock value minus one second
(formatted with the configured pattern) and forces fast-forward off for
that run. -/
theorem C4_baseline_minus_one (d : ArchiveDir) (now : Nat)
    (hr : d.readable = true)
    (hacc : ∀ e ∈ d.entries, e.metaOk = true)
    (huni : ∀ e ∈ d.entries, e.isDir = true → e.name ≠ EntryName.nonUnicode)
    (hempty : validTimestamps d.entries = []) :
    ∃ dec, resolveArchiveState d now true = Except.ok dec ∧
      dec.createdBaseline = some (now - 1) ∧ dec.fastForward = false := by
  have hL := latest_eq_specMax d hr hacc huni
  have hmax : specMaxParsed d.entries = none := by
    unfold specMaxParsed
    rw [hempty]
    rfl
  have hacc2 : ∀ e ∈ (archiveWithBaseline d now).entries, e.metaOk = true := by
    intro e he
    unfold archiveWithBaseline at he
    simp only [List.mem_append, List.mem_singleton] at he
    rcases he with h | h
    · exact hacc e h
    · subst h; rfl
  have huni2 : ∀ e ∈ (archiveWithBaseline d now).entries,
      e.isDir = true → e.name ≠ EntryName.nonUnicode := by
    intro e he
    unfold archiveWithBaseline at he
    simp only [List.mem_append, List.mem_singleton] at he
    rcases he with h | h
    · exact huni e h
    · subst h
      intro _
      simp
  have hC2 := count_eq_length (archiveWithBaseline d now) hr hacc2 huni2
  have hlen : (validTimestamps (archiveWithBaseline d now).entries).length = 1 := by
    show (validTimestamps (d.entries ++ [{ isDir := true, name := EntryName.valid (now - 1), metaOk := true }])).length = 1
    rw [validTimestamps_append, hempty]
    rfl
  rw [hlen] at hC2
  refine ⟨{ createdBaseline := some (now - 1), latestTsVal := now - 1, fastForward := false },
    ?_, rfl, rfl⟩
  simp [resolveArchiveState, hL, hmax, hC2]

/-- C4 witness: the amended theorem instantiated at the empty archive with
clock value 100. -/
theorem C4_baseline_minus_one_witness :
    ∃ dec, resolveArchiveState dC4empty 100 true = Except.ok dec ∧
      dec.createdBaseline = some 99 ∧ dec.fastForward = false :=
  C4_baseline_minus_one dC4empty 100 (by decide) (by decide) (by decide) (by decide)



def fsC1 : Fs := fun p =>
  if p = "A/a/x" then some 1 else if p = "W/c/x" then some 1
  else if p = "A/b/y" then some 2 else if p = "W/d/y" then some 2 else none

def clC1 : ChangeList :=
  { deleted := [FsEntity.File "a/x", FsEntity.File "b/y"],
    changed := [FsEntity.File "c/x", FsEntity.File "d/y"], moved := [] }

/-- C1 (code bug, evaluation at the failing input): with two deleted files
that each have a same-name same-size changed candidate, the entity
File b/y appears as a move source in moved and simultaneously remains in
deleted after extract_moves, because the keep-flag vector is misaligned with
the deleted list (the inner continue only continues the candidate loop, so a
matched file pushes both a false and a true flag). This refutes the claimed
invariant that no moved source stays in deleted. -/
theorem C1_moved_entity_still_deleted :
    (FsEntity.File "b/y", "d/y") ∈ ((extract_moves fsC1 "A" "W" clC1).1).moved ∧
    FsEntity.File "b/y" ∈ ((extract_moves fsC1 "A" "W" clC1).1).deleted := by
  decide

def fsC3 : Fs := fun p =>
  if p = "A/a/x" then some 5 else if p = "W/c/x" then some 5
  else if p = "W/d/x" then some 5 else none

def clC3 : ChangeList :=
  { deleted := [FsEntity.File "a/x"],
    changed := [FsEntity.File "c/x", FsEntity.File "d/x"], moved := [] }

/-- C3 (code bug, evaluation at the failing input): a single deleted file
with two same-name same-size candidates produces one move entry per
matching candidate (two entries), not exactly one entry for the first
match as the specification states. -/
theorem C3_one_entry_per_candidate :
    ((extract_moves fsC3 "A" "W" clC3).1).moved =
      [(FsEntity.File "a/x", "c/x"), (FsEntity.File "a/x", "d/x")] ∧
    ((extract_moves fsC3 "A" "W" clC3).1).moved.length ≠ 1 := by
  decide

/-- C10: the list returned by extract_moves (its return value, as opposed
to the moved field of the record) is always empty: the source never pushes
to the local vector it returns. -/
theorem C10_returned_moves_empty (fs : Fs) (archivedDir workingDir : String)
    (cl : ChangeList) :
    (extract_moves fs archivedDir workingDir cl).2 = [] := rfl

/-- C2: when deleted is exactly one file D that stats to size S in the
archived directory and changed is exactly one file C with the same base
filename and size S in the working directory, extract_moves removes D from
deleted and records the pair (D, C) in moved. -/
theorem C2_single_candidate_move (fs : Fs) (archivedDir workingDir : String)
    (dp cp nm : String) (S : Nat) (cl : ChangeList)
    (hdn : fileName dp = some nm) (hcn : fileName cp = some nm)
    (hds : fs (pathJoin archivedDir dp) = some S)
    (hcs : fs (pathJoin workingDir cp) = some S)
    (hdel : cl.deleted = [FsEntity.File dp])
    (hch : cl.changed = [FsEntity.File cp]) :
    FsEntity.File dp ∉ ((extract_moves fs archivedDir workingDir cl).1).deleted ∧
    (FsEntity.File dp, cp) ∈ ((extract_moves fs archivedDir workingDir cl).1).moved := by
  obtain ⟨del, ch, mv⟩ := cl
  simp only at hdel hch
  subst hdel
  subst hch
  have hcand : candidatePaths [FsEntity.File cp] nm = [cp] := by
    unfold candidatePaths
    simp [hcn]
  have hsm : sizeMatches fs workingDir S cp = true := by
    unfold sizeMatches
    rw [hcs]
    simp
  have hproc : processDeleted fs archivedDir workingDir [FsEntity.File cp] (FsEntity.File dp)
      = ([false, true], [(FsEntity.File dp, cp)]) := by
    simp only [processDeleted, hdn, hds, hcand]
    simp [List.filter_cons, hsm]
  unfold extract_moves
  simp only [List.map_cons, List.map_nil, hproc]
  simp

def fsC2w : Fs := fun p =>
  if p = "A/a/old.txt" then some 7 else if p = "W/b/old.txt" then some 7 else none

def clC2w : ChangeList :=
  { deleted := [FsEntity.File "a/old.txt"], changed := [FsEntity.File "b/old.txt"],
    moved := [] }

/-- C2 witness: the theorem instantiated at a concrete record and stat
oracle. -/
theorem C2_single_candidate_move_witness :
    FsEntity.File "a/old.txt" ∉ ((extract_moves fsC2w "A" "W" clC2w).1).deleted ∧
    (FsEntity.File "a/old.txt", "b/old.txt") ∈ ((extract_moves fsC2w "A" "W" clC2w).1).moved :=
  C2_single_candidate_move fsC2w "A" "W" "a/old.txt" "b/old.txt" "old.txt" 7 clC2w
    (by decide) (by decide) (by decide) (by decide) rfl rfl

def lineDelC7 : String := delMarker ++ "a/b.txt" ++ String.mk [quoteChar]

def lineSendC7 : String := sendMarker ++ "a/b.txt/" ++ String.mk [quoteChar]

/-- C7: parsing output with one deletion line for a/b.txt and one transfer
line for a/b.txt/ (trailing separator) yields deleted = [File a/b.txt] and
changed = [Folder a/b.txt]; output in which no line carries either
recognized marker yields none. -/
theorem C7_collect_example :
    collect [lineDelC7, lineSendC7] =
      some { deleted := [FsEntity.File "a/b.txt"],
             changed := [FsEntity.Folder "a/b.txt"], moved := [] } ∧
    collect ["sending incremental file list", "", "total size is 0"] = none := by
  decide



/-- C8 as amended: extract_diff fails exactly when the binary is not found,
the process cannot be run or captured, the process exits non-zero, or the
captured output contains the failure sentinel; given a successful run it
returns none exactly when the output holds no recognized change line, and a
ChangeRecord exactly when it holds at least one. -/
theorem C8_extract_diff_cases (env : RsyncEnv) :
    ((∃ e, rsync_extract_diff env = Except.error e) ↔
      (env.binaryFound = false ∨ env.runResult = none ∨
        (∃ out, env.runResult = some (false, out)) ∨
        (∃ out, env.runResult = some (true, out) ∧ hasSentinel out = true))) ∧
    ((rsync_extract_diff env = Except.ok none) ↔
      (env.binaryFound = true ∧
        ∃ out, env.runResult = some (true, out) ∧ hasSentinel out = false ∧
          collect out = none)) ∧
    (∀ cl, (rsync_extract_diff env = Except.ok (some cl)) ↔
      (env.binaryFound = true ∧
        ∃ out, env.runResult = some (true, out) ∧ hasSentinel out = false ∧
          collect out = some cl)) := by
  obtain ⟨bf, rr⟩ := env
  cases bf with
  | false => simp [rsync_extract_diff]
  | true =>
    cases rr with
    | none => simp [rsync_extract_diff]
    | some p =>
      obtain ⟨ex, out⟩ := p
      cases ex with
      | false => simp [rsync_extract_diff]
      | true =>
        cases hs : hasSentinel out with
        | false => simp [rsync_extract_diff, hs]
        | true => simp [rsync_extract_diff, hs]

def envC8 : RsyncEnv := { binaryFound := true, runResult := none }

/-- C8 counterexample: when the binary is found but the process cannot be
run or captured, extract_diff fails although none of the three error
conditions listed by the claim (binary missing, non-zero exit, sentinel in
the captured output) holds. -/
theorem C8_run_failure_cex :
    rsync_extract_diff envC8 = Except.error RsyncError.runFailed ∧
    envC8.binaryFound = true ∧ envC8.runResult = none :=
  ⟨rfl, rfl, rfl⟩

theorem resolve_err_not_late (d : ArchiveDir) (now : Nat) (cok : Bool) :
    resolveArchiveState d now cok ≠ Except.error ArchiveError.serialize ∧
    resolveArchiveState d now cok ≠ Except.error ArchiveError.auditWrite := by
  unfold resolveArchiveState
  constructor <;> intro hx <;> (repeat' split at hx) <;> simp_all

theorem forkApply_eff (env : RunEnv) (dec : FfDecision) (cl : ChangeList) (eff0 : RunEffects)
    (h : (forkApply env dec cl eff0).1 = Except.error ArchiveError.serialize ∨
         (forkApply env dec cl eff0).1 = Except.error ArchiveError.auditWrite) :
    (forkApply env dec cl eff0).2.snapshotMutated = true ∧
    (forkApply env dec cl eff0).2.diffApplied = true := by
  unfold forkApply archiveFinish at h ⊢
  cases hff : dec.fastForward <;> cases hmv : env.moveOk <;> cases hcp : env.copyOk <;>
    cases hap : env.applyOk <;> cases hse : env.serializeOk <;> cases hwr : env.writeOk <;>
    simp_all

/-- C9: whenever a run fails at the audit-record serialization step or the
audit-file write step, the fork or rename of the latest snapshot and the
diff application have both already succeeded within that run. -/
theorem C9_serialize_after_mutation (env : RunEnv)
    (h : (archive_local env).1 = Except.error ArchiveError.serialize ∨
         (archive_local env).1 = Except.error ArchiveError.auditWrite) :
    (archive_local env).2.snapshotMutated = true ∧
    (archive_local env).2.diffApplied = true := by
  unfold archive_local at h ⊢
  cases hres : resolveArchiveState env.archive env.now env.createDirOk with
  | error e =>
    exfalso
    rw [hres] at h
    rcases h with h | h
    · simp at h
      subst h
      exact (resolve_err_not_late env.archive env.now env.createDirOk).1 hres
    · simp at h
      subst h
      exact (resolve_err_not_late env.archive env.now env.createDirOk).2 hres
  | ok dec =>
    rw [hres] at h
    replace h : (afterResolve env dec).1 = Except.error ArchiveError.serialize ∨
        (afterResolve env dec).1 = Except.error ArchiveError.auditWrite := h
    show (afterResolve env dec).2.snapshotMutated = true ∧
      (afterResolve env dec).2.diffApplied = true
    unfold afterResolve at h ⊢
    cases hrs : rsync_extract_diff env.rsync with
    | error e2 =>
      exfalso
      rw [hrs] at h
      rcases h with h | h <;> simp at h
    | ok od =>
      cases od with
      | none =>
        exfalso
        rw [hrs] at h
        rcases h with h | h <;> simp at h
      | some cl =>
        rw [hrs] at h
        exact forkApply_eff env dec cl
          { noEffects with createdBaseline := dec.createdBaseline } h

def dC9 : ArchiveDir :=
  { readable := true,
    entries := [{ isDir := true, name := EntryName.valid 5, metaOk := true }] }

def rsC9 : RsyncEnv :=
  { binaryFound := true,
    runResult := some (true, [delMarker ++ "a/x" ++ String.mk [quoteChar]]) }

def envC9 : RunEnv :=
  { archive := dC9, now := 10, createDirOk := true, rsync := rsC9,
    fsStat := fun _ => none, workingDir := "W", archiveRoot := "R",
    moveOk := true, copyOk := true, applyOk := true, serializeOk := false,
    writeOk := true }

/-- C9 witness: the theorem instantiated at a concrete run whose
serialization step fails while every earlier step succeeds. -/
theorem C9_serialize_after_mutation_witness :
    (archive_local envC9).2.snapshotMutated = true ∧
    (archive_local envC9).2.diffApplied = true :=
  C9_serialize_after_mutation envC9 (Or.inl (by rfl))


end Vhb
